import Mathlib

/-!
Verification of tvheadend's `src/filebundle.c` (dual-backend file bundle module).

The C module is shallowly embedded below.  Bytes are modelled as `Nat`, byte
buffers as `List Nat`, C strings as `String`, and `NULL`-able pointers as
`Option`.  The zlib codec (`inflate`/`deflate`, an external collaborator of the
module) is passed in as a pair of abstract functions; the OS filesystem
(`fopen`/`stat`, `opendir`) is passed in as abstract lookup functions.
-/

/-! ## Bundle tree (`filebundle_entry_t`)

A node has a `name` and is either a directory (`FB_DIR`, with the `d.child`
sibling list) or a file (`FB_FILE`, with payload `f.data`, `f.size` being the
payload length, and `f.orig` which is `-1` for entries stored uncompressed,
modelled as `none`, or the pre-compression size, modelled as `some n`). -/

inductive FbEntry where
  | dir  (name : String) (children : List FbEntry)
  | file (name : String) (data : List Nat) (orig : Option Nat)

/-- `fb->name`. -/
def FbEntry.name : FbEntry → String
  | .dir n _ => n
  | .file n _ _ => n

/-- `fb->type == FB_DIR`. -/
def FbEntry.isDir : FbEntry → Bool
  | .dir _ _ => true
  | .file _ _ _ => false

/-- `fb->d.child` (sibling list of a directory node).  On a file node the C
code would read a union member that was never stored; such reads never happen
on the paths modelled here, and we return `[]` as a placeholder. -/
def FbEntry.children : FbEntry → List FbEntry
  | .dir _ c => c
  | .file _ _ _ => []

/-- `fb->f.data` (placeholder `[]` on a directory node, see `children`). -/
def FbEntry.fdata : FbEntry → List Nat
  | .dir _ _ => []
  | .file _ d _ => d

/-- `fb->f.size`: the stored payload length (bundle-generation invariant). -/
def FbEntry.fsize (e : FbEntry) : Nat := e.fdata.length

/-- `fb->f.orig` (`none` models the `-1` sentinel). -/
def FbEntry.forig : FbEntry → Option Nat
  | .dir _ _ => none
  | .file _ _ o => o

/-! ## Directory handles (`fb_dir`) -/

/-- `fb_dir`: `FB_BUNDLE` holds `b.root` (the resolved node) and `b.cur`
(iteration cursor, initialised to `root->d.child`); `FB_DIRECT` holds the
resolved path `d.root` (the open `DIR*` stream is not needed by any claim). -/
inductive FbDir where
  | bundle (root : FbEntry) (cur : List FbEntry)
  | direct (root : String)

/-! ## File handles (`fb_file`) -/

/-- An open `FILE*`: the file's bytes plus the stream's read position. -/
structure DirectStream where
  data : List Nat
  fpos : Nat

/-- The union part of `fb_file`: `d.cur` (which becomes `NULL`, i.e. `none`,
after a compress step consumes the stream) or `b.root`. -/
inductive FbFileBackend where
  | direct (cur : Option DirectStream)
  | bundle (root : FbEntry)

/-- `fb_file`: `size`, `gzip`, the optionally owned buffer `buf`, the read
cursor `pos`, and the backend union. -/
structure FbFile where
  size : Nat
  gzip : Bool
  buf : Option (List Nat)
  pos : Nat
  backend : FbFileBackend

/-- `fb_eof`: `fp->pos >= fp->size`. -/
def fb_eof (fp : FbFile) : Bool := decide (fp.size ≤ fp.pos)

/-- Result of `fb_read`: the C return value (`none` models `-1`), the bytes
written into the caller's buffer, and the updated handle. -/
structure ReadOut where
  ret : Option Nat
  written : List Nat
  fp : FbFile

/-- `fb_read(fp, buf, count)`.  Mirrors the C branch structure: at eof return
`-1`; else if `fp->buf` is set copy `MIN(count, size - pos)` bytes from the
owned buffer; else if the handle is direct, `fread` up to `count` bytes from
the stream, advance `pos` by the amount actually read, and return `-1`; else
copy `MIN(count, b.root->f.size - pos)` bytes from the bundle payload.
`fread` on a stream is modelled as yielding `min count (len - fpos)` bytes. -/
def fb_read (fp : FbFile) (count : Nat) : ReadOut :=
  if fb_eof fp then ⟨none, [], fp⟩
  else match fp.buf with
  | some b =>
    let n := min count (fp.size - fp.pos)
    ⟨some n, (b.drop fp.pos).take n, { fp with pos := fp.pos + n }⟩
  | none =>
    match fp.backend with
    | .direct (some st) =>
      let n := min count (st.data.length - st.fpos)
      ⟨none, (st.data.drop st.fpos).take n,
        { fp with pos := fp.pos + n, backend := .direct (some ⟨st.data, st.fpos + n⟩) }⟩
    | .direct none => ⟨none, [], fp⟩
    | .bundle fb =>
      let n := min count (fb.fsize - fp.pos)
      ⟨some n, (fb.fdata.drop fp.pos).take n, { fp with pos := fp.pos + n }⟩

/-- `memcpy(buf + c, bs, bs.length)` on a caller buffer modelled as a list:
overwrite starting at index `c`. -/
def writeAt (buf : List Nat) (c : Nat) (bs : List Nat) : List Nat :=
  buf.take c ++ bs ++ buf.drop (c + bs.length)

@[simp] theorem writeAt_nil (buf : List Nat) (c : Nat) : writeAt buf c [] = buf := by
  simp [writeAt]

/-- State after the `fb_gets` loop: handle, caller buffer, `c`, and `err`
(the last `fb_read` return value; `none` models `-1`). -/
structure GetsLoopOut where
  fp : FbFile
  buf : List Nat
  c : Nat
  err : Option Nat

/-- The loop of `fb_gets`, indexed by `rem = (count - 1) - c`, the number of
iterations the guard `c < count - 1` still allows (the C loop is
`while ((err = fb_read(fp, buf+c, 1)) && c < (count-1))`; `fb_read` runs once
more even when the `c` bound is already reached, and on an eof return the body
still inspects the stale byte `buf[c]`). -/
def fb_gets_loop (fp : FbFile) (buf : List Nat) (c : Nat) : Nat → GetsLoopOut
  | 0 =>
    let r := fb_read fp 1
    ⟨r.fp, writeAt buf c r.written, c, r.ret⟩
  | rem + 1 =>
    let r := fb_read fp 1
    let buf1 := writeAt buf c r.written
    if r.ret = some 0 then ⟨r.fp, buf1, c, r.ret⟩
    else
      let b := buf1.getD c 0
      if b = 10 ∨ b = 0 then ⟨r.fp, buf1, c + 1, r.ret⟩
      else fb_gets_loop r.fp buf1 (c + 1) rem

/-- Result of `fb_gets`: the returned pointer (`none` models `NULL`; on
success the returned string is the caller buffer itself), the caller buffer
contents after the call, and the updated handle. -/
structure GetsOut where
  ret : Option (List Nat)
  buf : List Nat
  fp : FbFile

/-- `fb_gets(fp, buf, count)`: run the byte-at-a-time loop, return `NULL` if
the last `fb_read` signalled `-1`, else write the terminating `'\0'` at `c`
and return the buffer.  (`count ≥ 1` is assumed; in C `count` is a `size_t`
and `count - 1` would wrap at `0`.) -/
def fb_gets (fp : FbFile) (buf : List Nat) (count : Nat) : GetsOut :=
  let out := fb_gets_loop fp buf 0 (count - 1)
  match out.err with
  | none => ⟨none, out.buf, out.fp⟩
  | some _ => ⟨some (writeAt out.buf out.c [0]), writeAt out.buf out.c [0], out.fp⟩

/-- The visible content of a returned C string: bytes up to the `'\0'`. -/
def cString (l : List Nat) : List Nat := l.takeWhile (fun b => b != 0)

/-- Drain a file handle by repeated `fb_read` with chunk size `count`,
concatenating the bytes of every successful read, stopping at the `-1`
sentinel (`fuel` bounds the number of reads). -/
def fb_drain (fp : FbFile) (count : Nat) : Nat → List Nat
  | 0 => []
  | fuel + 1 =>
    let r := fb_read fp count
    match r.ret with
    | none => []
    | some _ => r.written ++ fb_drain r.fp count fuel

/-! ## Opening a file inside a directory (`fb_open2`) -/

/-- The locate loop of `fb_open2` on a bundle directory:
`while (fb) { if (!strcmp(name, fb->name)) break; fb = fb->next; }` — the
first child whose name is string-equal to `name`, with no check of the
child's type. -/
def fb_locate (children : List FbEntry) (name : String) : Option FbEntry :=
  match children with
  | [] => none
  | fb :: rest => if name == fb.name then some fb else fb_locate rest name

/-- `_fb_deflate(data, orig, size)`.  `zdef data` stands for the complete
gzip stream the external zlib `deflate` (window bits 31, level 9, `Z_FINISH`)
would produce for `data`; the wrapper's output buffer is only `orig` bytes
(`bufout = malloc(orig)`, `avail_out = orig`), so `zstr.total_out` is the
truncated length and the buffer holds the first `orig` bytes of the stream.
The success check `(err == Z_STREAM_END || err == Z_OK) && total_out != 0`
accepts `Z_OK` — the full-buffer, truncated-output case — as success; with
the stream model the only failure left is `total_out == 0`.  On success the
C code stores `total_out` into `*size`. -/
def fb_deflate (zdef : List Nat → List Nat) (data : List Nat) (orig : Nat) :
    Option (List Nat) :=
  let out := (zdef data).take orig
  if out.length = 0 then none else some out

/-- The body of `fb_open2` after the assertion.  `zdef` is the external zlib
deflate stream (see `fb_deflate`, which models the `_fb_deflate` wrapper
around it, called with `orig = ret->size`).  `infl` models
`_fb_inflate data orig` (`none` models the failure branch
`err != Z_STREAM_END || zstr.avail_out != 0`).  `fs` models the OS: contents
of the file at a path, or `none` when `fopen` fails; `st_size` is the
content length. -/
def fb_open2_body (zdef : List Nat → List Nat)
    (infl : List Nat → Nat → Option (List Nat))
    (fs : String → Option (List Nat)) (dir : FbDir) (name : String)
    (decompress compress : Bool) : Option FbFile :=
  -- locate the entry and build the initial handle
  let ret : Option FbFile :=
    match dir with
    | .bundle root _cur =>
      match fb_locate root.children name with
      | none => none
      | some fb =>
        let r0 : FbFile := ⟨fb.fsize, fb.forig.isSome, none, 0, .bundle fb⟩
        -- if (fb->f.orig != -1 && decompress) inflate the file
        match fb.forig, decompress with
        | some orig, true =>
          match infl fb.fdata orig with
          | none => none
          | some b => some { r0 with gzip := false, size := orig, buf := some b }
        | some _, false => some r0
        | none, _ => some r0
    | .direct droot =>
      match fs (droot ++ "/" ++ name) with
      | none => none
      | some data => some ⟨data.length, false, none, 0, .direct (some ⟨data, 0⟩)⟩
  -- if (ret && !ret->gzip && compress)
  match ret with
  | none => none
  | some r =>
    if !r.gzip && compress then
      let step : Option (List Nat) × FbFile :=
        match r.backend with
        | .bundle fb => (some fb.fdata, r)
        | .direct (some st) =>
          -- fread(data, 1, ret->size, ret->d.cur), then fclose
          let chunk := (st.data.drop st.fpos).take r.size
          (if chunk.length = r.size then some chunk else none,
            { r with backend := .direct none })
        | .direct none => (none, { r with backend := .direct none })
      match step.1 with
      | none => none
      | some data =>
        match fb_deflate zdef data r.size with
        | none => none
        | some comp => some { step.2 with gzip := true, size := comp.length, buf := some comp }
    else some r

/-- `fb_open2`: `assert(!decompress || !compress)` followed by the body.  An
assertion failure is modelled as `.error ()`. -/
def fb_open2 (zdef : List Nat → List Nat)
    (infl : List Nat → Nat → Option (List Nat))
    (fs : String → Option (List Nat)) (dir : FbDir) (name : String)
    (decompress compress : Bool) : Except Unit (Option FbFile) :=
  if decompress && compress then .error ()
  else .ok (fb_open2_body zdef infl fs dir name decompress compress)

/-! ## Opening a directory (`fb_opendir`) -/

/-- `strtok(path, "/")` tokenisation: split on `'/'` and drop the empty
tokens (`strtok` skips runs of delimiters). -/
def strtokSegs (path : String) : List String :=
  ((path.toList.splitOn '/').filter (fun t => t ≠ [])).map (fun t => String.mk t)

/-- The walk loop of `fb_opendir` in bundle mode:
`while (fb && tmp2) { if (fb->type == FB_DIR && !strcmp(fb->name, tmp2)) {
tmp2 = strtok(NULL, "/"); if (tmp2) fb = fb->d.child; } else fb = fb->next; }`
followed by `if (fb) ...`.  The pointer `fb` into a sibling chain is modelled
as the list of the current node and its following siblings (`[]` is `NULL`). -/
def walkLoop (fb : List FbEntry) (segs : List String) : Option FbEntry :=
  match fb, segs with
  | [], _ => none
  | f :: _, [] => some f
  | f :: rest, [s] =>
    -- match: `tmp2 = strtok(NULL, "/")` is NULL, the loop exits with this `fb`
    if f.isDir && f.name == s then some f else walkLoop rest [s]
  | f :: rest, s :: s2 :: ss =>
    -- match: a further segment remains, `fb = fb->d.child`; else `fb = fb->next`
    if f.isDir && f.name == s then walkLoop f.children (s2 :: ss)
    else walkLoop rest (s :: s2 :: ss)
termination_by (segs.length, fb.length)

/-- `fb_opendir(path)`.  `ods` models `opendir` success on a path;
`dataroot` models `tvheadend_dataroot()` (`none` triggers bundle mode);
`root` models `filebundle_root`.  A non-absolute path (`*path != '/'`)
consults the data root; bundle mode walks the static tree, direct mode opens
`root ++ "/" ++ path`. -/
def fb_opendir (ods : String → Bool) (dataroot : Option String)
    (root : List FbEntry) (path : String) : Option FbDir :=
  let rootOpt : Option String :=
    if path.toList.head? = some '/' then some "" else dataroot
  match rootOpt with
  | none =>
    match walkLoop root (strtokSegs path) with
    | none => none
    | some fb => some (FbDir.bundle fb fb.children)
  | some r =>
    if ods (r ++ "/" ++ path) then some (FbDir.direct (r ++ "/" ++ path)) else none

/-! ## Opening a file by path (`fb_open`) and resource events -/

/-- Resource-relevant events of a call to `fb_open`, in order. -/
inductive FbEvent where
  | calledOpendir
  | openedDir
  | calledOpen2
  | closedDir
deriving DecidableEq

/-- `strrchr(tmp, '/')` followed by `*pos = '\0'`: split a character list at
its last `'/'`, yielding (directory part, final component); `none` when the
list has no `'/'`. -/
def splitLastSlash : List Char → Option (List Char × List Char)
  | [] => none
  | ch :: rest =>
    match splitLastSlash rest with
    | some (d, f) => some (ch :: d, f)
    | none => if ch = '/' then some ([], rest) else none

/-- `fb_closedir`: releasing a directory handle.  Only the emitted event is
modelled (the C code closes the `DIR*` stream and frees the owned path for
direct handles, then frees the handle). -/
def fb_closedir (_dir : FbDir) : List FbEvent := [FbEvent.closedDir]

/-- `fb_open(path, decompress, compress)`: split the path at its last `'/'`
(no `'/'` → return `NULL` at once), open the directory part, then open the
final component inside it.  The event trace records the `fb_opendir` attempt,
its success, and the `fb_open2` call; the C function returns without ever
calling `fb_closedir` on the handle it created. -/
def fb_open (zdef : List Nat → List Nat)
    (infl : List Nat → Nat → Option (List Nat))
    (fs : String → Option (List Nat)) (ods : String → Bool)
    (dataroot : Option String) (root : List FbEntry) (path : String)
    (decompress compress : Bool) : Except Unit (Option FbFile) × List FbEvent :=
  match splitLastSlash path.toList with
  | none => (.ok none, [])
  | some (d, f) =>
    match fb_opendir ods dataroot root (String.mk d) with
    | none => (.ok none, [.calledOpendir])
    | some dir =>
      (fb_open2 zdef infl fs dir (String.mk f) decompress compress,
        [.calledOpendir, .openedDir, .calledOpen2])

/-! ## Shared concrete instances for witnesses -/

/-- A trivial raw deflate-stream stand-in for witnesses. -/
def zdef0 : List Nat → List Nat := fun _ => []

/-- A trivial inflate stand-in for witnesses. -/
def infl0 : List Nat → Nat → Option (List Nat) := fun _ _ => none

/-- A trivial filesystem stand-in for witnesses. -/
def fs0 : String → Option (List Nat) := fun _ => none

/-- A trivial `opendir` stand-in for witnesses. -/
def ods0 : String → Bool := fun _ => false

/-! ## Claim C7 -/

/-- Claim C7: for a handle with `pos ≤ size`, `fb_eof` is true exactly when
the cursor equals the size, and `fb_read` at eof returns the `-1` sentinel
with the handle (cursor and buffer included) unchanged and nothing written. -/
theorem fb_eof_read_contract (fp : FbFile) (count : Nat) (h : fp.pos ≤ fp.size) :
    (fb_eof fp = true ↔ fp.pos = fp.size) ∧
    (fb_eof fp = true → fb_read fp count = ⟨none, [], fp⟩) := by
  constructor
  · simp only [fb_eof, decide_eq_true_eq]
    omega
  · intro he
    simp [fb_read, he]

/-- A handle sitting at eof, for the C7 witness. -/
def fpC7 : FbFile := ⟨3, false, none, 3, .direct none⟩

/-- Witness for C7 at a concrete eof handle. -/
theorem fb_eof_read_contract_witness :
    fpC7.pos ≤ fpC7.size ∧
    ((fb_eof fpC7 = true ↔ fpC7.pos = fpC7.size) ∧
      (fb_eof fpC7 = true → fb_read fpC7 5 = ⟨none, [], fpC7⟩)) :=
  ⟨by decide, fb_eof_read_contract fpC7 5 (by decide)⟩

/-! ## Claim C6 -/

/-- Claim C6: on a Direct handle with no owned buffer and cursor below size,
`fb_read` copies up to `count` bytes from the OS stream into the caller's
buffer, advances the cursor by exactly the number of bytes actually read,
and still returns the `-1` end-of-stream sentinel. -/
theorem fb_read_direct_sentinel (fp : FbFile) (st : DirectStream) (count : Nat)
    (h1 : fp.buf = none) (h2 : fp.backend = .direct (some st))
    (h3 : fp.pos < fp.size) :
    fb_read fp count =
      ⟨none, (st.data.drop st.fpos).take (min count (st.data.length - st.fpos)),
        { fp with
            pos := fp.pos + min count (st.data.length - st.fpos),
            backend := .direct (some ⟨st.data, st.fpos + min count (st.data.length - st.fpos)⟩) }⟩ := by
  have he : fb_eof fp = false := by
    simp only [fb_eof, decide_eq_false_iff_not]
    omega
  simp [fb_read, he, h1, h2]

/-- A mid-file direct handle for the C6 witness. -/
def fpC6 : FbFile := ⟨5, false, none, 1, .direct (some ⟨[1, 2, 3, 4, 5], 1⟩)⟩

/-- Witness for C6: two bytes are read and the sentinel is still returned. -/
theorem fb_read_direct_sentinel_witness :
    fb_read fpC6 2 = ⟨none, [2, 3], ⟨5, false, none, 3, .direct (some ⟨[1, 2, 3, 4, 5], 3⟩)⟩⟩ :=
  fb_read_direct_sentinel fpC6 ⟨[1, 2, 3, 4, 5], 1⟩ 2 rfl rfl (by decide)

/-! ## Claim C8 -/

/-- Claim C8: `fb_open2` treats both flags being set as a contract violation
enforced by `assert(!decompress || !compress)`; whenever at most one flag is
set the assertion holds and the violation branch is unreachable (the call
proceeds to the ordinary body). -/
theorem fb_open2_assert_exclusive (zdef : List Nat → List Nat)
    (infl : List Nat → Nat → Option (List Nat)) (fs : String → Option (List Nat))
    (dir : FbDir) (name : String) (decompress compress : Bool) :
    (decompress = true → compress = true →
      fb_open2 zdef infl fs dir name decompress compress = .error ()) ∧
    (¬ (decompress = true ∧ compress = true) →
      fb_open2 zdef infl fs dir name decompress compress =
        .ok (fb_open2_body zdef infl fs dir name decompress compress)) := by
  constructor
  · intro hd hc
    subst hd
    subst hc
    simp [fb_open2]
  · intro h
    have hb : (decompress && compress) = false := by
      cases decompress <;> cases compress <;> simp_all
    simp [fb_open2, hb]

/-- Witness for C8: both flags set hits the assertion; a single flag does not. -/
theorem fb_open2_assert_exclusive_witness :
    fb_open2 zdef0 infl0 fs0 (FbDir.direct "r") "n" true true = .error () ∧
    fb_open2 zdef0 infl0 fs0 (FbDir.direct "r") "n" true false =
      .ok (fb_open2_body zdef0 infl0 fs0 (FbDir.direct "r") "n" true false) :=
  ⟨(fb_open2_assert_exclusive zdef0 infl0 fs0 (FbDir.direct "r") "n" true true).1 rfl rfl,
    (fb_open2_assert_exclusive zdef0 infl0 fs0 (FbDir.direct "r") "n" true false).2 (by simp)⟩

/-! ## Claim C3 -/

/-- Counterexample to claim C3: the locate loop of `fb_open2` matches a
Directory child by name — it never checks that the child is a File node. -/
theorem fb_locate_dir_counterexample :
    fb_locate [FbEntry.dir "x" []] "x" = some (FbEntry.dir "x" []) ∧
    (FbEntry.dir "x" []).isDir = true :=
  ⟨rfl, rfl⟩

/-- Claim C3 (amended): the locate step selects the first child whose name is
exactly string-equal to the requested name, regardless of the child's node
type; a Directory child with a matching name does satisfy the lookup. -/
theorem fb_locate_eq_find_by_name (children : List FbEntry) (name : String) :
    fb_locate children name = children.find? (fun e => name == e.name) := by
  induction children with
  | nil => rfl
  | cons fb rest ih =>
    simp only [fb_locate, List.find?]
    cases h : name == fb.name <;> simp [h, ih]

/-! ## Claim C10 -/

/-- `strrchr` finds no `'/'` in a slash-free character list. -/
theorem splitLastSlash_eq_none (cs : List Char) (h : '/' ∉ cs) :
    splitLastSlash cs = none := by
  induction cs with
  | nil => rfl
  | cons ch rest ih =>
    simp only [List.mem_cons, not_or] at h
    have hch : ¬ (ch = '/') := fun e => h.1 e.symm
    simp [splitLastSlash, ih h.2, hch]

/-- Claim C10: a path with no `'/'` makes `fb_open` return an absent handle
immediately — no backend (bundle walk or OS directory) is consulted, whatever
the bundle tree and filesystem contain. -/
theorem fb_open_no_slash_not_found (zdef : List Nat → List Nat)
    (infl : List Nat → Nat → Option (List Nat)) (fs : String → Option (List Nat))
    (ods : String → Bool) (dataroot : Option String) (root : List FbEntry)
    (path : String) (decompress compress : Bool) (h : '/' ∉ path.toList) :
    fb_open zdef infl fs ods dataroot root path decompress compress = (.ok none, []) := by
  have h2 : splitLastSlash path.data = none := splitLastSlash_eq_none path.toList h
  simp [fb_open, h2]

/-- Witness for C10 on the slash-free path `"abc"`, with a bundle entry and a
filesystem entry of that very name present in the backends. -/
theorem fb_open_no_slash_not_found_witness :
    fb_open zdef0 infl0 (fun _ => some [1]) (fun _ => true) none
      [FbEntry.file "abc" [1] none] "abc" false false = (.ok none, []) :=
  fb_open_no_slash_not_found zdef0 infl0 (fun _ => some [1]) (fun _ => true) none
    [FbEntry.file "abc" [1] none] "abc" false false (by decide)

/-! ## Draining a buffered handle -/

/-- Byte-at-a-time draining of a handle that owns a buffer `l` (with
`size = l.length`) yields exactly the bytes of `l` from the cursor on. -/
theorem fb_drain_buffered (l : List Nat) :
    ∀ (fuel p : Nat) (g : Bool) (bk : FbFileBackend), l.length - p < fuel →
      fb_drain ⟨l.length, g, some l, p, bk⟩ 1 fuel = l.drop p := by
  intro fuel
  induction fuel with
  | zero => intro p g bk h; omega
  | succ fuel ih =>
    intro p g bk h
    by_cases hp : l.length ≤ p
    · have he : fb_eof ⟨l.length, g, some l, p, bk⟩ = true := by
        simp only [fb_eof, decide_eq_true_eq]
        exact hp
      simp [fb_drain, fb_read, he, List.drop_eq_nil_of_le hp]
    · have hlt : p < l.length := by omega
      have he : fb_eof ⟨l.length, g, some l, p, bk⟩ = false := by
        simp only [fb_eof, decide_eq_false_iff_not]
        omega
      have hmin : min 1 (l.length - p) = 1 := by omega
      simp only [fb_drain, fb_read, he, Bool.false_eq_true, if_false, hmin]
      rw [ih (p + 1) g bk (by omega)]
      rw [List.drop_eq_getElem_cons hlt]
      simp

/-! ## Claim C4 -/

/-- The claim's precondition, in the claim's words: the uncompressed source
content at `(dir, name)` — the payload of a Bundle child stored uncompressed,
or the bytes of the Direct file `dirpath/name`. -/
def uncompressedSource (fs : String → Option (List Nat)) (dir : FbDir)
    (name : String) : Option (List Nat) :=
  match dir with
  | .bundle root _ =>
    match fb_locate root.children name with
    | some (.file _ d none) => some d
    | _ => none
  | .direct droot => fs (droot ++ "/" ++ name)

/-- The original claim's conclusion for a compressing open of source content
`orig`: either the open failed, or the handle owns a materialized buffer that
is gzip-flagged, whose length is the reported size, and that independently
inflates back to `orig`. -/
def compressPost (infl : List Nat → Nat → Option (List Nat)) (orig : List Nat) :
    Except Unit (Option FbFile) → Prop
  | .error _ => False
  | .ok none => True
  | .ok (some h) =>
    match h.buf with
    | none => False
    | some comp => h.gzip = true ∧ h.size = comp.length ∧ infl comp orig.length = some orig

/-- Raw deflate stream for the C4 counterexample: a gzip stream is always
longer than a short source (header and trailer overhead), modelled here as
one header byte, the payload, one trailer byte. -/
def zdefC4x : List Nat → List Nat := fun x => 42 :: (x ++ [99])

/-- Inflate inverting `zdefC4x` on complete streams only: strip the header
byte, require the trailer byte and the recorded original length; anything
else — in particular a truncated stream — fails. -/
def inflC4x : List Nat → Nat → Option (List Nat) := fun y n =>
  match y with
  | 42 :: rest =>
    if rest.getLast? = some 99 ∧ rest.dropLast.length = n then some rest.dropLast
    else none
  | _ => none

/-- Bundle directory holding the uncompressed entry used for C4. -/
def dirC4 : FbDir := .bundle (FbEntry.dir "d" [FbEntry.file "f" [1, 2] none]) []

/-- Counterexample to claim C4: with a codec whose inflate does invert
complete deflate streams (first conjunct), compressing the 2-byte source
`[1, 2]` produces a 4-byte stream; `_fb_deflate`'s output buffer is only
`orig = 2` bytes and its success check accepts `Z_OK` with a full buffer, so
the open succeeds with the truncated buffer `[42, 1]` (second conjunct) —
which does not inflate back to the source, refuting the claimed
fail-or-round-trip disjunction (third conjunct). -/
theorem fb_open2_compress_truncation_counterexample :
    inflC4x (zdefC4x [1, 2]) 2 = some [1, 2] ∧
    fb_open2 zdefC4x inflC4x fs0 dirC4 "f" false true =
      .ok (some ⟨2, true, some [42, 1], 0, .bundle (FbEntry.file "f" [1, 2] none)⟩) ∧
    ¬ compressPost inflC4x [1, 2] (fb_open2 zdefC4x inflC4x fs0 dirC4 "f" false true) := by
  refine ⟨by decide, rfl, ?_⟩
  have hres : fb_open2 zdefC4x inflC4x fs0 dirC4 "f" false true =
      .ok (some ⟨2, true, some [42, 1], 0, .bundle (FbEntry.file "f" [1, 2] none)⟩) := rfl
  rw [hres]
  exact fun hp => absurd hp.2.2 (by decide)

/-- The amended claim's conclusion: either the open failed, or the handle is
gzip-flagged and owns a materialized buffer equal to the deflate stream of
the source truncated to the source's length (the size of `_fb_deflate`'s
output buffer), with `size` equal to that buffer's length; whenever the
complete deflate stream fits within the source length — no truncation — the
buffer independently inflates back to the original bytes. -/
def compressPostTrunc (zdef : List Nat → List Nat)
    (infl : List Nat → Nat → Option (List Nat)) (orig : List Nat) :
    Except Unit (Option FbFile) → Prop
  | .error _ => False
  | .ok none => True
  | .ok (some h) =>
    match h.buf with
    | none => False
    | some comp =>
      h.gzip = true ∧ h.size = comp.length ∧ comp = (zdef orig).take orig.length ∧
        ((zdef orig).length ≤ orig.length → infl comp orig.length = some orig)

/-- `_fb_deflate` either fails or returns the deflate stream truncated to
the `orig`-byte output buffer. -/
theorem fb_deflate_eq (zdef : List Nat → List Nat) (data : List Nat) (orig : Nat) :
    fb_deflate zdef data orig = none ∨
    fb_deflate zdef data orig = some ((zdef data).take orig) := by
  by_cases h : ((zdef data).take orig).length = 0
  · exact Or.inl (by simp only [fb_deflate]; rw [if_pos h])
  · exact Or.inr (by simp only [fb_deflate]; rw [if_neg h])

/-- Claim C4 (amended): for any uncompressed source content (uncompressed
bundle entry or direct file), opening with `compress = true` either fails or
yields a gzip-flagged handle whose buffer is the source's deflate stream
truncated to the source length, `size` being the buffer's length; the
independent-inflate round trip holds whenever the complete stream fits (no
truncation).  `hrt` is the invertibility of the external zlib pair on
complete streams. -/
theorem fb_open2_compress_roundtrip (zdef : List Nat → List Nat)
    (infl : List Nat → Nat → Option (List Nat)) (fs : String → Option (List Nat))
    (dir : FbDir) (name : String) (orig : List Nat)
    (hrt : ∀ x, infl (zdef x) x.length = some x)
    (hsrc : uncompressedSource fs dir name = some orig) :
    compressPostTrunc zdef infl orig (fb_open2 zdef infl fs dir name false true) := by
  cases dir with
  | direct droot =>
    simp only [uncompressedSource] at hsrc
    rcases fb_deflate_eq zdef orig orig.length with hdf | hdf
    · simp [fb_open2, fb_open2_body, hsrc, hdf, compressPostTrunc]
    · simp [fb_open2, fb_open2_body, hsrc, hdf, compressPostTrunc]
      intro hfit
      rw [List.take_of_length_le hfit]
      exact hrt orig
  | bundle root cur =>
    simp only [uncompressedSource] at hsrc
    cases hloc : fb_locate root.children name with
    | none => rw [hloc] at hsrc; simp at hsrc
    | some fb =>
      rw [hloc] at hsrc
      cases fb with
      | dir n ch => simp at hsrc
      | file n d o =>
        cases o with
        | some k => simp at hsrc
        | none =>
          have hd : d = orig := by simpa using hsrc
          subst hd
          rcases fb_deflate_eq zdef d d.length with hdf | hdf
          · simp [fb_open2, fb_open2_body, hloc, hdf, compressPostTrunc,
              FbEntry.forig, FbEntry.fdata, FbEntry.fsize]
          · simp [fb_open2, fb_open2_body, hloc, hdf, compressPostTrunc,
              FbEntry.forig, FbEntry.fdata, FbEntry.fsize]
            intro hfit
            rw [List.take_of_length_le hfit]
            exact hrt d

/-- Identity-style raw deflate stream for the C4 witness: every stream fits
within its source, so no truncation occurs. -/
def zdefC4 : List Nat → List Nat := fun x => x

/-- Inflate matching `zdefC4`, checking the recorded original size. -/
def inflC4 : List Nat → Nat → Option (List Nat) := fun y n =>
  if y.length = n then some y else none

/-- Witness for the amended C4 at a concrete uncompressed bundle entry. -/
theorem fb_open2_compress_roundtrip_witness :
    compressPostTrunc zdefC4 inflC4 [1, 2]
      (fb_open2 zdefC4 inflC4 fs0 dirC4 "f" false true) :=
  fb_open2_compress_roundtrip zdefC4 inflC4 fs0 dirC4 "f" [1, 2]
    (by intro x; simp [zdefC4, inflC4])
    rfl

/-! ## Claim C5 -/

/-- The claim's conclusion for a decompressing open of a bundle entry whose
stored bytes are `stored` with recorded original size `origLen`: if inflating
fails, the open returns an absent handle; if it yields `original`, the open
succeeds with `size` the original length, gzip flag cleared, the owned buffer
holding `original`, and a full byte-at-a-time drain reading back `original`. -/
def inflateOpenPost (infl : List Nat → Nat → Option (List Nat)) (stored : List Nat)
    (origLen : Nat) (res : Except Unit (Option FbFile)) : Prop :=
  match infl stored origLen with
  | none => res = .ok none
  | some original =>
    match res with
    | .ok (some h) =>
      h.size = original.length ∧ h.gzip = false ∧ h.buf = some original ∧
        h.pos = 0 ∧ fb_drain h 1 (h.size + 1) = original
    | _ => False

/-- Claim C5: opening a gzip-stored bundle entry with `decompress = true`
either fails (inflate failure → absent handle) or succeeds with `size` equal
to the original length, the gzip flag cleared, and draining `read` returning
exactly the original bytes.  `hlen` is the property of `_fb_inflate` that a
successful inflate fills the output buffer of size `orig` exactly
(`avail_out == 0`). -/
theorem fb_open2_decompress_roundtrip (zdef : List Nat → List Nat)
    (infl : List Nat → Nat → Option (List Nat)) (fs : String → Option (List Nat))
    (root : FbEntry) (cur : List FbEntry) (name nm : String) (stored : List Nat)
    (origLen : Nat)
    (hloc : fb_locate root.children name = some (.file nm stored (some origLen)))
    (hlen : ∀ r, infl stored origLen = some r → r.length = origLen) :
    inflateOpenPost infl stored origLen
      (fb_open2 zdef infl fs (.bundle root cur) name true false) := by
  cases hinf : infl stored origLen with
  | none =>
    simp [inflateOpenPost, hinf, fb_open2, fb_open2_body, hloc,
      FbEntry.forig, FbEntry.fdata]
  | some original =>
    have hl : original.length = origLen := hlen original hinf
    subst hl
    have hres : fb_open2 zdef infl fs (.bundle root cur) name true false =
        .ok (some ⟨original.length, false, some original, 0,
          .bundle (.file nm stored (some original.length))⟩) := by
      simp [fb_open2, fb_open2_body, hloc, FbEntry.forig, FbEntry.fdata, hinf]
    simp only [inflateOpenPost, hinf, hres]
    have hd := fb_drain_buffered original (original.length + 1) 0 false
      (.bundle (.file nm stored (some original.length))) (by omega)
    simpa using hd

/-- Inflate used in the C5 witness: stored bytes `[9, 9]` with recorded
original size `3` inflate to `[1, 2, 3]`. -/
def inflC5 : List Nat → Nat → Option (List Nat) := fun d n =>
  if d = [9, 9] ∧ n = 3 then some [1, 2, 3] else none

/-- Bundle directory node holding the gzip-stored entry of the C5 witness. -/
def rootC5 : FbEntry := FbEntry.dir "d" [FbEntry.file "f" [9, 9] (some 3)]

/-- Witness for C5 at a concrete gzip-stored bundle entry and codec. -/
theorem fb_open2_decompress_roundtrip_witness :
    inflateOpenPost inflC5 [9, 9] 3
      (fb_open2 zdef0 inflC5 fs0 (.bundle rootC5 []) "f" true false) :=
  fb_open2_decompress_roundtrip zdef0 inflC5 fs0 rootC5 [] "f" "f" [9, 9] 3
    rfl
    (by
      intro r h
      simp [inflC5] at h
      subst h
      rfl)

/-! ## Claim C9 -/

/-- Modelled from the spec: at one segment, "matching a sibling node by name
and requiring it be a Directory node" — the first sibling that is a Directory
node with the requested name (`not-found` when the segment "fails to match or
matches a non-directory"). -/
def specFindDir (s : String) : List FbEntry → Option FbEntry
  | [] => none
  | f :: rest => if f.isDir && f.name == s then some f else specFindDir s rest

/-- Modelled from the spec: "split `path` into `/`-separated segments and walk
the static bundle tree from its root, at each segment matching a sibling node
by name and requiring it be a Directory node before descending into its
children for the next segment"; the resolved node of the last segment is the
result, any failure is `not-found`. -/
def specWalk (siblings : List FbEntry) : List String → Option FbEntry
  | [] => none
  | [s] => specFindDir s siblings
  | s :: s2 :: ss =>
    match specFindDir s siblings with
    | none => none
    | some f => specWalk f.children (s2 :: ss)

/-- On a final segment the C walk loop is exactly a directory-aware name scan
of the sibling chain. -/
theorem walkLoop_single (s : String) (sib : List FbEntry) :
    walkLoop sib [s] = specFindDir s sib := by
  induction sib with
  | nil => simp [walkLoop, specFindDir]
  | cons f rest ih =>
    cases h : f.isDir && f.name == s <;> simp [walkLoop, specFindDir, h, ih]

/-- On a non-final segment the C walk loop scans the sibling chain and then
descends into the children of the matched directory. -/
theorem walkLoop_cons_cons (s s2 : String) (ss : List String) (sib : List FbEntry) :
    walkLoop sib (s :: s2 :: ss) =
      match specFindDir s sib with
      | none => none
      | some f => walkLoop f.children (s2 :: ss) := by
  induction sib with
  | nil => simp [walkLoop, specFindDir]
  | cons f rest ih =>
    cases h : f.isDir && f.name == s <;> simp [walkLoop, specFindDir, h, ih]

/-- The interleaved C walk loop computes the spec's recursive descent, for any
non-empty segment list. -/
theorem walkLoop_eq_specWalk (ss : List String) :
    ∀ (sib : List FbEntry) (s : String), walkLoop sib (s :: ss) = specWalk sib (s :: ss) := by
  induction ss with
  | nil =>
    intro sib s
    simp [walkLoop_single, specWalk]
  | cons s2 ss ih =>
    intro sib s
    rw [walkLoop_cons_cons]
    simp only [specWalk]
    cases specFindDir s sib with
    | none => rfl
    | some f => simpa using ih f.children s2

/-- Claim C9: for a non-absolute path in bundle mode (no data root), and a
path that splits into at least one segment, `fb_opendir` returns exactly the
spec's tree walk: a Bundle handle referencing the resolved node (cursor on
its children) on success, `not-found` when any segment fails to match a
directory sibling. -/
theorem fb_opendir_bundle_walk_spec (ods : String → Bool) (root : List FbEntry)
    (path : String) (h1 : ¬ path.toList.head? = some '/')
    (h2 : strtokSegs path ≠ []) :
    fb_opendir ods none root path =
      (specWalk root (strtokSegs path)).map (fun f => FbDir.bundle f f.children) := by
  obtain ⟨s, ss, hseg⟩ : ∃ s ss, strtokSegs path = s :: ss := by
    cases hs : strtokSegs path with
    | nil => exact absurd hs h2
    | cons a l => exact ⟨a, l, rfl⟩
  simp only [fb_opendir, if_neg h1]
  rw [hseg, walkLoop_eq_specWalk]
  cases specWalk root (s :: ss) <;> simp

/-- Bundle tree for the C9 witness. -/
def rootC9 : List FbEntry := [FbEntry.dir "a" [FbEntry.dir "b" []]]

/-- Witness for C9 on the two-segment path `"a/b"`. -/
theorem fb_opendir_bundle_walk_spec_witness :
    fb_opendir ods0 none rootC9 "a/b" =
      (specWalk rootC9 (strtokSegs "a/b")).map (fun f => FbDir.bundle f f.children) :=
  fb_opendir_bundle_walk_spec ods0 rootC9 "a/b" (by decide) (by decide)

/-! ## Claim C2 -/

/-- Bundle tree for the C2 failing input. -/
def rootC2 : List FbEntry := [FbEntry.dir "a" [FbEntry.file "b" [7] none]]

/-- Claim C2 fails on the code: on the path `"a/b"` (bundle mode),
`fb_open` splits the path, opens the directory, and calls `fb_open2` — the
file open even succeeds — yet `fb_closedir` is never invoked on the handle
`fb_open` itself created: the directory handle is leaked on every call. -/
theorem fb_open_leaks_directory_handle :
    (fb_open zdef0 infl0 fs0 ods0 none rootC2 "a/b" false false).2 =
      [FbEvent.calledOpendir, FbEvent.openedDir, FbEvent.calledOpen2] ∧
    FbEvent.closedDir ∉ (fb_open zdef0 infl0 fs0 ods0 none rootC2 "a/b" false false).2 := by
  have h1 : splitLastSlash "a/b".toList = some (['a'], ['b']) := by decide
  have hw : walkLoop rootC2 ["a"] = some (FbEntry.dir "a" [FbEntry.file "b" [7] none]) := by
    rw [walkLoop_single]
    rfl
  have hsg : strtokSegs (String.mk ['a']) = ["a"] := by decide
  have hhd : ¬ ((String.mk ['a']).toList.head? = some '/') := by decide
  have h2 : fb_opendir ods0 none rootC2 (String.mk ['a']) =
      some (FbDir.bundle (FbEntry.dir "a" [FbEntry.file "b" [7] none])
        [FbEntry.file "b" [7] none]) := by
    simp [fb_opendir, if_neg hhd, hsg, hw, FbEntry.children]
  have htr : (fb_open zdef0 infl0 fs0 ods0 none rootC2 "a/b" false false).2 =
      [FbEvent.calledOpendir, FbEvent.openedDir, FbEvent.calledOpen2] := by
    simp only [fb_open, h1, h2]
  exact ⟨htr, by rw [htr]; decide⟩

/-! ## Claim C1 -/

/-- The seven bytes `"abc\ndef"`. -/
def c1content : List Nat := [97, 98, 99, 10, 100, 101, 102]

/-- A buffered handle whose remaining content is `"abc\ndef"`. -/
def c1fp0 : FbFile := ⟨7, false, some c1content, 0, .bundle (FbEntry.file "f" c1content none)⟩

/-- The first `fb_gets` call of the C1 scenario. -/
def c1g1 (buf0 : List Nat) (count : Nat) : GetsOut := fb_gets c1fp0 buf0 count

/-- The second `fb_gets` call of the C1 scenario, on the updated handle and
the reused call buffer. -/
def c1g2 (buf0 : List Nat) (count : Nat) : GetsOut :=
  fb_gets (c1g1 buf0 count).fp (c1g1 buf0 count).buf count

/-- The third `fb_gets` call of the C1 scenario. -/
def c1g3 (buf0 : List Nat) (count : Nat) : GetsOut :=
  fb_gets (c1g2 buf0 count).fp (c1g2 buf0 count).buf count

/-- Counterexample to claim C1: on the buffered content `"abc\ndef"` with a
generous 32-byte buffer, the second `fb_gets` call does not return `"def"` —
it returns `NULL` (the loop reads `d`, `e`, `f`, then hits end-of-stream
before any newline, and `fb_gets` returns `NULL` whenever the last `fb_read`
signalled `-1`) — and the first call does not return exactly `"abc"` either:
the newline is retained, as with `fgets`. -/
theorem fb_gets_c1_counterexample :
    (c1g2 (List.replicate 32 0) 32).ret = none ∧
    (c1g1 (List.replicate 32 0) 32).ret.map cString ≠ some [97, 98, 99] :=
  ⟨rfl, by decide⟩

/-- Claim C1 (amended): on a buffered handle over `"abc\ndef"` with a caller
buffer of generous size, the first `fb_gets` returns the buffer holding
`"abc\n"` (newline retained, `'\0'`-terminated) with the cursor advanced past
the newline to 4; the second call consumes `"def"` (the bytes are placed in
the buffer and the cursor reaches 7) but returns the end-of-stream `NULL`,
because the byte loop hits end-of-stream before a newline; the third call
also returns end-of-stream. -/
theorem fb_gets_abc_def_amended (count : Nat) (buf0 : List Nat)
    (hc : 9 ≤ count) (hb : buf0.length = count) :
    (c1g1 buf0 count).ret = some (c1g1 buf0 count).buf ∧
    cString (c1g1 buf0 count).buf = [97, 98, 99, 10] ∧
    (c1g1 buf0 count).fp.pos = 4 ∧
    (c1g2 buf0 count).ret = none ∧
    (c1g2 buf0 count).fp.pos = 7 ∧
    (c1g2 buf0 count).buf.take 3 = [100, 101, 102] ∧
    (c1g3 buf0 count).ret = none ∧
    (c1g3 buf0 count).fp.pos = 7 := by
  obtain ⟨k, rfl⟩ : ∃ k, count = k + 9 := ⟨count - 9, by omega⟩
  rcases buf0 with _ | ⟨b0, _ | ⟨b1, _ | ⟨b2, _ | ⟨b3, _ | ⟨b4, rest⟩⟩⟩⟩⟩ <;>
    simp only [List.length] at hb <;> try omega
  have e1 : fb_gets c1fp0 (b0 :: b1 :: b2 :: b3 :: b4 :: rest) (k + 9) =
      ⟨some (97 :: 98 :: 99 :: 10 :: 0 :: rest), 97 :: 98 :: 99 :: 10 :: 0 :: rest,
        ⟨7, false, some c1content, 4, .bundle (FbEntry.file "f" c1content none)⟩⟩ := rfl
  have e2 : fb_gets ⟨7, false, some c1content, 4, .bundle (FbEntry.file "f" c1content none)⟩
      (97 :: 98 :: 99 :: 10 :: 0 :: rest) (k + 9) =
      ⟨none, 100 :: 101 :: 102 :: 10 :: 0 :: rest,
        ⟨7, false, some c1content, 7, .bundle (FbEntry.file "f" c1content none)⟩⟩ := rfl
  have e3 : fb_gets ⟨7, false, some c1content, 7, .bundle (FbEntry.file "f" c1content none)⟩
      (100 :: 101 :: 102 :: 10 :: 0 :: rest) (k + 9) =
      ⟨none, 100 :: 101 :: 102 :: 10 :: 0 :: rest,
        ⟨7, false, some c1content, 7, .bundle (FbEntry.file "f" c1content none)⟩⟩ := rfl
  simp only [c1g1, c1g2, c1g3, e1, e2, e3]
  simp [cString]

/-- Witness for the amended C1 at a 32-byte zero-initialised buffer. -/
theorem fb_gets_abc_def_amended_witness :
    (c1g1 (List.replicate 32 0) 32).ret = some (c1g1 (List.replicate 32 0) 32).buf ∧
    cString (c1g1 (List.replicate 32 0) 32).buf = [97, 98, 99, 10] ∧
    (c1g1 (List.replicate 32 0) 32).fp.pos = 4 ∧
    (c1g2 (List.replicate 32 0) 32).ret = none ∧
    (c1g2 (List.replicate 32 0) 32).fp.pos = 7 ∧
    (c1g2 (List.replicate 32 0) 32).buf.take 3 = [100, 101, 102] ∧
    (c1g3 (List.replicate 32 0) 32).ret = none ∧
    (c1g3 (List.replicate 32 0) 32).fp.pos = 7 :=
  fb_gets_abc_def_amended 32 (List.replicate 32 0) (by decide) (by simp)
